import Mathlib

/-!
Verification of the Semantic-OS CLI: a shallow embedding of the mapping
store / preset construction (`src/semantic-cli/src/config/mod.rs`), the
translation engine (`cmd_translate` in `src/semantic-cli/src/main.rs`) and
the TUI wizard state machine (`src/semantic-cli/src/tui/mod.rs`), together
with theorems about them.

Rust `HashMap<String, String>` values are embedded as association lists
`List (String × String)`; all maps in the program are built from literals
with distinct keys and are only ever queried with `get`, so `List.lookup`
is a faithful model of lookup. Rust's `str::split_whitespace` is embedded
as splitting on whitespace characters and discarding empty fragments.
-/

set_option autoImplicit false

namespace SemanticOS

/-- `GeneralConfig` from `config/mod.rs`: command and folder style tags. -/
structure GeneralConfig where
  command_style : String
  folder_style : String
deriving DecidableEq

/-- `ShellConfig` from `config/mod.rs`: default shell, enabled shells, new-shell policy. -/
structure ShellConfig where
  default : String
  enabled : List String
  on_new_shell : String
deriving DecidableEq

/-- `SemanticConfig` from `config/mod.rs`: the mapping store. -/
structure SemanticConfig where
  general : GeneralConfig
  shells : ShellConfig
  commands : List (String × String)
  paths : List (String × String)
deriving DecidableEq

/-- `natural_commands` from `config/mod.rs`. -/
def natural_commands : List (String × String) :=
  [("goto", "cd"),
   ("back", "cd .."),
   ("list", "ls -la"),
   ("delete", "rm -rf"),
   ("copy", "cp -r"),
   ("move", "mv"),
   ("install", "sudo pacman -S"),
   ("remove", "sudo pacman -R"),
   ("update", "sudo pacman -Syu")]

/-- `verbose_commands` from `config/mod.rs`. -/
def verbose_commands : List (String × String) :=
  [("go-to", "cd"),
   ("go-back", "cd .."),
   ("list-files", "ls -la"),
   ("delete-file", "rm -rf"),
   ("copy-file", "cp -r"),
   ("move-file", "mv"),
   ("install-package", "sudo pacman -S"),
   ("remove-package", "sudo pacman -R"),
   ("update-system", "sudo pacman -Syu")]

/-- `traditional_commands` from `config/mod.rs`: identity mappings. -/
def traditional_commands : List (String × String) :=
  [("cd", "cd"),
   ("ls", "ls"),
   ("rm", "rm"),
   ("cp", "cp"),
   ("mv", "mv"),
   ("pacman", "pacman")]

/-- `natural_paths` from `config/mod.rs`. -/
def natural_paths : List (String × String) :=
  [("/apps", "/usr/bin"),
   ("/settings", "/etc"),
   ("/logs", "/var/log")]

/-- `verbose_paths` from `config/mod.rs`. -/
def verbose_paths : List (String × String) :=
  [("/user/applications", "/usr/bin"),
   ("/configuration", "/etc"),
   ("/system-logs", "/var/log")]

/-- `traditional_paths` from `config/mod.rs`: no remapping. -/
def traditional_paths : List (String × String) := []

/-- `SemanticConfig::from_selections` from `config/mod.rs`: builds a config
from the four wizard selections, choosing preset tables by style name with
fallback to the traditional tables for any other style string. -/
def SemanticConfig.from_selections (shell command_style folder_style on_new_shell : String) :
    SemanticConfig :=
  { general := { command_style := command_style, folder_style := folder_style },
    shells := { default := shell, enabled := [shell], on_new_shell := on_new_shell },
    commands :=
      if command_style = "natural" then natural_commands
      else if command_style = "verbose" then verbose_commands
      else traditional_commands,
    paths :=
      if folder_style = "natural" then natural_paths
      else if folder_style = "verbose" then verbose_paths
      else traditional_paths }

/-- One step of whitespace splitting, folded over the characters from the
right: the accumulator is the token currently being built and the list of
completed tokens. A whitespace character closes the current token (if any);
any other character extends it. -/
def split_whitespace_step (c : Char) (acc : List Char × List String) :
    List Char × List String :=
  if c.isWhitespace then ([], if acc.1 = [] then acc.2 else String.mk acc.1 :: acc.2)
  else (c :: acc.1, acc.2)

/-- Embedding of Rust `str::split_whitespace`: the maximal whitespace-free
runs of the string, in order, so no returned token is empty and a string
that is empty or all whitespace yields `[]`. -/
def splitWhitespace (s : String) : List String :=
  let r := s.toList.foldr split_whitespace_step ([], [])
  if r.1 = [] then r.2 else String.mk r.1 :: r.2

/-- Outcome of one `semantic translate` invocation (`cmd_translate` in
`main.rs`), up to the point where the real command is spawned: either an
execution plan handed to `Command::new`, a fatal diagnostic printed to
stderr followed by `exit(code)`, or a panic (the `expect` call). -/
inductive TranslateResult where
  | exec (program : String) (args : List String)
  | fatal (diagnostic : String) (exitCode : Nat)
  | panicked (msg : String)
deriving DecidableEq

/-- Whether the outcome is the orderly fatal-diagnostic path with a
non-zero exit code (as opposed to a plan or a panic). -/
def TranslateResult.is_fatal_diagnostic : TranslateResult → Bool
  | .fatal _ code => code ≠ 0
  | _ => false

/-- `cmd_translate` from `main.rs` (the translation core, after the config
has been loaded): look the semantic command up in `commands`, split the
real command on whitespace into program and builtin args (`expect` panics
when the mapping is empty), and substitute each extra argument by a
whole-string lookup in `paths`, unmatched arguments passing through. -/
def cmd_translate (config : SemanticConfig) (semantic_cmd : String)
    (extra_args : List String) : TranslateResult :=
  match List.lookup semantic_cmd config.commands with
  | none => .fatal ("Unknown semantic command: " ++ semantic_cmd) 1
  | some real_cmd =>
    match splitWhitespace real_cmd with
    | [] => .panicked "empty command mapping"
    | program :: builtin_args =>
      .exec program
        (builtin_args ++ extra_args.map (fun arg => (List.lookup arg config.paths).getD arg))

/-- The natural preset store, as committed by the wizard for the natural
command and folder styles. -/
def natural_store : SemanticConfig :=
  SemanticConfig.from_selections "fish" "natural" "natural" "ignore"

/-- `Step` from `tui/mod.rs`: the wizard steps. -/
inductive Step where
  | Welcome
  | Shell
  | CommandStyle
  | FolderStyle
  | NewShellBehavior
  | Summary
  | Done
deriving DecidableEq

/-- `Step::next` from `tui/mod.rs`. -/
def Step.next : Step → Step
  | .Welcome => .Shell
  | .Shell => .CommandStyle
  | .CommandStyle => .FolderStyle
  | .FolderStyle => .NewShellBehavior
  | .NewShellBehavior => .Summary
  | .Summary => .Done
  | .Done => .Done

/-- `Step::prev` from `tui/mod.rs`. -/
def Step.prev : Step → Step
  | .Welcome => .Welcome
  | .Shell => .Welcome
  | .CommandStyle => .Shell
  | .FolderStyle => .CommandStyle
  | .NewShellBehavior => .FolderStyle
  | .Summary => .NewShellBehavior
  | .Done => .Done

/-- `App` from `tui/mod.rs`: the wizard session state. Each Rust
`ListState` is embedded as its `selected()` value, an `Option Nat`. -/
structure App where
  step : Step
  shell_state : Option Nat
  command_style_state : Option Nat
  folder_style_state : Option Nat
  new_shell_state : Option Nat
  shells : List String
  command_styles : List String
  folder_styles : List String
  new_shell_options : List (String × String)
  should_quit : Bool
  write_error : Option String
deriving DecidableEq

/-- `App::new` from `tui/mod.rs`: every list state starts with the first
item selected, on the `Welcome` step. -/
def App.new : App :=
  { step := .Welcome,
    shell_state := some 0,
    command_style_state := some 0,
    folder_style_state := some 0,
    new_shell_state := some 0,
    shells := ["fish", "bash", "zsh"],
    command_styles := ["natural", "traditional", "verbose"],
    folder_styles := ["natural", "traditional", "verbose"],
    new_shell_options :=
      [("auto-setup", "Automatically configure new shells"),
       ("notify", "Notify when a new shell is detected"),
       ("ignore", "Do nothing")],
    should_quit := false,
    write_error := none }

/-- `App::selected_shell` from `tui/mod.rs`. Rust indexes the vector
directly (a panic when out of bounds); the embedding totalizes with `""`,
and the in-bounds invariant is proved separately. -/
def App.selected_shell (s : App) : String :=
  s.shells.getD (s.shell_state.getD 0) ""

/-- `App::selected_command_style` from `tui/mod.rs`. -/
def App.selected_command_style (s : App) : String :=
  s.command_styles.getD (s.command_style_state.getD 0) ""

/-- `App::selected_folder_style` from `tui/mod.rs`. -/
def App.selected_folder_style (s : App) : String :=
  s.folder_styles.getD (s.folder_style_state.getD 0) ""

/-- `App::selected_new_shell` from `tui/mod.rs`: the value component of the
selected option. -/
def App.selected_new_shell (s : App) : String :=
  (s.new_shell_options.getD (s.new_shell_state.getD 0) ("", "")).1

/-- `App::move_up` from `tui/mod.rs`: on a selection-bearing step
(`current_list_state` is `Some`), wrap the cursor upward; otherwise do
nothing. -/
def App.move_up (s : App) : App :=
  match s.step with
  | .Shell =>
    { s with shell_state := some (
        if s.shell_state.getD 0 = 0 then s.shells.length - 1
        else s.shell_state.getD 0 - 1) }
  | .CommandStyle =>
    { s with command_style_state := some (
        if s.command_style_state.getD 0 = 0 then s.command_styles.length - 1
        else s.command_style_state.getD 0 - 1) }
  | .FolderStyle =>
    { s with folder_style_state := some (
        if s.folder_style_state.getD 0 = 0 then s.folder_styles.length - 1
        else s.folder_style_state.getD 0 - 1) }
  | .NewShellBehavior =>
    { s with new_shell_state := some (
        if s.new_shell_state.getD 0 = 0 then s.new_shell_options.length - 1
        else s.new_shell_state.getD 0 - 1) }
  | _ => s

/-- `App::move_down` from `tui/mod.rs`: on a selection-bearing step, wrap
the cursor downward; otherwise do nothing. -/
def App.move_down (s : App) : App :=
  match s.step with
  | .Shell =>
    { s with shell_state := some ((s.shell_state.getD 0 + 1) % s.shells.length) }
  | .CommandStyle =>
    { s with command_style_state := some (
        (s.command_style_state.getD 0 + 1) % s.command_styles.length) }
  | .FolderStyle =>
    { s with folder_style_state := some (
        (s.folder_style_state.getD 0 + 1) % s.folder_styles.length) }
  | .NewShellBehavior =>
    { s with new_shell_state := some (
        (s.new_shell_state.getD 0 + 1) % s.new_shell_options.length) }
  | _ => s

/-- The config committed on the `Summary` step, built inside `App::advance`
(`tui/mod.rs`) from the four current selections. -/
def App.commit_config (s : App) : SemanticConfig :=
  SemanticConfig.from_selections s.selected_shell s.selected_command_style
    s.selected_folder_style s.selected_new_shell

/-- `App::advance` from `tui/mod.rs`. On `Summary` the built config is
saved; the outcome of the external `config.save()` call is the parameter
`save_result` (`none` for `Ok(())`, `some e` for `Err(e)`). On success the
error is cleared and the step becomes `Done`; on failure the error message
is recorded and the step is unchanged. On any other step, move to the next
step. -/
def App.advance (s : App) (save_result : Option String) : App :=
  if s.step = Step.Summary then
    match save_result with
    | none => { s with write_error := none, step := Step.Done }
    | some e => { s with write_error := some ("Failed to write config: " ++ e) }
  else
    { s with step := s.step.next }

/-- `App::go_back` from `tui/mod.rs`: clear the write error and move to the
previous step. -/
def App.go_back (s : App) : App :=
  { s with write_error := none, step := s.step.prev }

/-- An abstract wizard operation; the advance operation carries the outcome
of the external persistence attempt it would trigger on `Summary`. -/
inductive Op where
  | up
  | down
  | back
  | advance (save_result : Option String)
deriving DecidableEq

/-- Apply one operation to the session. -/
def App.applyOp (s : App) : Op → App
  | .up => s.move_up
  | .down => s.move_down
  | .back => s.go_back
  | .advance r => s.advance r

/-- Run a sequence of wizard operations from a session state. -/
def run (l : List Op) (s : App) : App :=
  l.foldl App.applyOp s

/-- The option count of the current step's list, `0` on the steps for which
`current_list_state` returns `None` (`Welcome`, `Summary`, `Done`). -/
def App.cur_count (s : App) : Nat :=
  match s.step with
  | .Shell => s.shells.length
  | .CommandStyle => s.command_styles.length
  | .FolderStyle => s.folder_styles.length
  | .NewShellBehavior => s.new_shell_options.length
  | _ => 0

/-- The cursor of the current step's list as the code reads it
(`selected().unwrap_or(0)`), `0` on the non-selection steps. -/
def App.cur_cursor (s : App) : Nat :=
  match s.step with
  | .Shell => s.shell_state.getD 0
  | .CommandStyle => s.command_style_state.getD 0
  | .FolderStyle => s.folder_style_state.getD 0
  | .NewShellBehavior => s.new_shell_state.getD 0
  | _ => 0

/-- The four cursor positions of a session, bundled. -/
def App.cursors (s : App) : Option Nat × Option Nat × Option Nat × Option Nat :=
  (s.shell_state, s.command_style_state, s.folder_style_state, s.new_shell_state)

/-- Every cursor, as read by the accessors (`selected().unwrap_or(0)`), is
strictly below the length of its option list — exactly the condition under
which the direct vector indexing in `selected_shell`,
`selected_command_style`, `selected_folder_style` and `selected_new_shell`
is in bounds. -/
def App.cursors_in_bounds (s : App) : Prop :=
  s.shell_state.getD 0 < s.shells.length ∧
  s.command_style_state.getD 0 < s.command_styles.length ∧
  s.folder_style_state.getD 0 < s.folder_styles.length ∧
  s.new_shell_state.getD 0 < s.new_shell_options.length

instance (s : App) : Decidable s.cursors_in_bounds := by
  unfold App.cursors_in_bounds
  infer_instance

/-- A store whose only command mapping resolves to the empty string, as a
hand-edited configuration could contain. -/
def bad_store : SemanticConfig :=
  { general := { command_style := "traditional", folder_style := "traditional" },
    shells := { default := "fish", enabled := ["fish"], on_new_shell := "ignore" },
    commands := [("x", "")],
    paths := [] }

/-- The wizard session on the `Summary` step with selections
shell=fish, commandStyle=traditional, folderStyle=traditional,
newShellBehavior=ignore. -/
def summary_fish_traditional : App :=
  { App.new with
    step := .Summary
    command_style_state := some 1
    folder_style_state := some 1
    new_shell_state := some 2 }

/-- C1: for every store and alias token present in `commandMap`, `translate`
splits the resolved real command on whitespace into program and fixed args,
substitutes each trailing argument independently by whole-string lookup in
`pathMap` (unmapped arguments pass through, order preserved), and returns
the plan `program, fixedArgs ++ substitutedTrailingArgs`; under the natural
preset, `goto ["/apps"]` yields `cd ["/usr/bin"]` and
`list ["/not/mapped"]` yields `ls ["-la", "/not/mapped"]`. -/
theorem translate_substitution :
    (∀ (config : SemanticConfig) (cmd : String) (args : List String)
      (real program : String) (fixed : List String),
      List.lookup cmd config.commands = some real →
      splitWhitespace real = program :: fixed →
      cmd_translate config cmd args =
        .exec program (fixed ++ args.map (fun a => (List.lookup a config.paths).getD a))) ∧
    cmd_translate natural_store "goto" ["/apps"] = .exec "cd" ["/usr/bin"] ∧
    cmd_translate natural_store "list" ["/not/mapped"] = .exec "ls" ["-la", "/not/mapped"] := by
  refine ⟨?_, by decide, by decide⟩
  intro config cmd args real program fixed h1 h2
  simp [cmd_translate, h1, h2]

/-- Witness for C1 at the concrete natural-preset input `goto ["/apps"]`. -/
theorem translate_substitution_witness :
    cmd_translate natural_store "goto" ["/apps"] =
      .exec "cd" ([] ++ ["/apps"].map (fun a => (List.lookup a natural_store.paths).getD a)) :=
  translate_substitution.1 natural_store "goto" ["/apps"] "cd" "cd" [] (by decide) (by decide)

/-- C2 counterexample: on a store mapping `"x"` to the empty string, the
translation of `"x"` terminates by the `expect` panic `"empty command
mapping"`, not by an orderly fatal-diagnostic-and-exit path, so the claim
that the failure mode is a `MalformedMapping` diagnostic rather than a
crash is false. -/
theorem translate_empty_mapping_not_diagnostic :
    cmd_translate bad_store "x" [] = .panicked "empty command mapping" ∧
    (cmd_translate bad_store "x" []).is_fatal_diagnostic = false := by
  decide

/-- C2 amended: for every store in which the alias token resolves to an
empty (or whitespace-only) real-command string, `translate` terminates by a
panic (the `expect` call) with message `"empty command mapping"` — a crash
that aborts the process with a non-zero status, not the orderly
diagnostic-and-exit path. -/
theorem translate_empty_mapping_panics :
    ∀ (config : SemanticConfig) (cmd : String) (args : List String) (real : String),
      List.lookup cmd config.commands = some real →
      splitWhitespace real = [] →
      cmd_translate config cmd args = .panicked "empty command mapping" := by
  intro config cmd args real h1 h2
  simp [cmd_translate, h1, h2]

/-- Witness for the amended C2 at the concrete store `bad_store`. -/
theorem translate_empty_mapping_panics_witness :
    cmd_translate bad_store "x" [] = .panicked "empty command mapping" :=
  translate_empty_mapping_panics bad_store "x" [] "" (by decide) (by decide)

/-- C6: for every store and alias token absent from `commandMap`,
`translate` fails with the unknown-command diagnostic naming the token and
exit code 1; in particular `frobnicate` under the natural preset. -/
theorem unknown_command_fatal :
    (∀ (config : SemanticConfig) (cmd : String) (args : List String),
      List.lookup cmd config.commands = none →
      cmd_translate config cmd args = .fatal ("Unknown semantic command: " ++ cmd) 1) ∧
    cmd_translate natural_store "frobnicate" [] =
      .fatal "Unknown semantic command: frobnicate" 1 ∧
    (cmd_translate natural_store "frobnicate" []).is_fatal_diagnostic = true := by
  refine ⟨?_, by decide, by decide⟩
  intro config cmd args h
  simp [cmd_translate, h]

/-- Witness for C6 at the concrete input `frobnicate` on the natural
preset. -/
theorem unknown_command_fatal_witness :
    cmd_translate natural_store "frobnicate" [] =
      .fatal ("Unknown semantic command: " ++ "frobnicate") 1 :=
  unknown_command_fatal.1 natural_store "frobnicate" [] (by decide)

/-- C5: preset construction is total and pure over arbitrary style strings:
`natural` and `verbose` select their fixed tables and every other string
falls back to the traditional tables; committing
fish/traditional/traditional/ignore yields a store whose `commandMap` is
exactly the traditional preset and whose `pathMap` is empty. -/
theorem preset_selection_total :
    (∀ (sh cs fs ns : String), cs ≠ "natural" → cs ≠ "verbose" →
      (SemanticConfig.from_selections sh cs fs ns).commands = traditional_commands) ∧
    (∀ (sh cs fs ns : String), fs ≠ "natural" → fs ≠ "verbose" →
      (SemanticConfig.from_selections sh cs fs ns).paths = traditional_paths) ∧
    (∀ (sh fs ns : String),
      (SemanticConfig.from_selections sh "natural" fs ns).commands = natural_commands) ∧
    (∀ (sh fs ns : String),
      (SemanticConfig.from_selections sh "verbose" fs ns).commands = verbose_commands) ∧
    (∀ (sh cs ns : String),
      (SemanticConfig.from_selections sh cs "natural" ns).paths = natural_paths) ∧
    (∀ (sh cs ns : String),
      (SemanticConfig.from_selections sh cs "verbose" ns).paths = verbose_paths) ∧
    App.commit_config summary_fish_traditional =
      SemanticConfig.from_selections "fish" "traditional" "traditional" "ignore" ∧
    (SemanticConfig.from_selections "fish" "traditional" "traditional" "ignore").commands =
      traditional_commands ∧
    (SemanticConfig.from_selections "fish" "traditional" "traditional" "ignore").paths = [] := by
  refine ⟨?_, ?_, ?_, ?_, ?_, ?_, by decide, by decide, by decide⟩
  · intro sh cs fs ns h1 h2
    simp [SemanticConfig.from_selections, h1, h2]
  · intro sh cs fs ns h1 h2
    simp [SemanticConfig.from_selections, h1, h2]
  · intro sh fs ns
    rfl
  · intro sh fs ns
    rfl
  · intro sh cs ns
    rfl
  · intro sh cs ns
    rfl

/-- Witness for C5 at the concrete unrecognized style string `weird`. -/
theorem preset_selection_total_witness :
    (SemanticConfig.from_selections "zsh" "weird" "weird" "notify").commands =
      traditional_commands :=
  preset_selection_total.1 "zsh" "weird" "weird" "notify" (by decide) (by decide)

/-- Wrapping decrement: for an in-bounds index, the branching decrement of
`move_up` agrees with decrementing modulo the option count. -/
theorem up_index_eq (i n : Nat) (h : i < n) :
    (if i = 0 then n - 1 else i - 1) = (i + n - 1) % n := by
  rcases Nat.eq_zero_or_pos i with h0 | h0
  · subst h0
    rw [if_pos rfl, Nat.zero_add, Nat.mod_eq_of_lt (by omega)]
  · rw [if_neg (by omega)]
    have h2 : i + n - 1 = n + (i - 1) := by omega
    rw [h2, Nat.add_mod_left, Nat.mod_eq_of_lt (by omega)]

/-- `move_up` never changes the current step. -/
theorem move_up_step (s : App) : s.move_up.step = s.step := by
  unfold App.move_up
  split <;> rfl

/-- `move_down` never changes the current step. -/
theorem move_down_step (s : App) : s.move_down.step = s.step := by
  unfold App.move_down
  split <;> rfl

/-- C3: a failed persistence attempt on `Summary` records a human-readable
`write_error` and stays on `Summary`; a subsequent successful advance from
`Summary` clears the error and reaches `Done` (also stated composed after a
failure); and `go_back` clears the error unconditionally. -/
theorem commit_failure_retry :
    (∀ (s : App) (e : String), s.step = Step.Summary →
      (s.advance (some e)).write_error = some ("Failed to write config: " ++ e) ∧
      (s.advance (some e)).step = Step.Summary) ∧
    (∀ s : App, s.step = Step.Summary →
      (s.advance none).write_error = none ∧ (s.advance none).step = Step.Done) ∧
    (∀ (s : App) (e : String), s.step = Step.Summary →
      ((s.advance (some e)).advance none).write_error = none ∧
      ((s.advance (some e)).advance none).step = Step.Done) ∧
    (∀ s : App, s.go_back.write_error = none) := by
  refine ⟨?_, ?_, ?_, fun s => rfl⟩
  · intro s e h
    simp [App.advance, h]
  · intro s h
    simp [App.advance, h]
  · intro s e h
    have h2 : (s.advance (some e)).step = Step.Summary := by
      simp [App.advance, h]
    generalize hT : s.advance (some e) = t at h2 ⊢
    simp [App.advance, h2]

/-- Witness for C3: a failed then successful commit attempt on the concrete
`Summary` session. -/
theorem commit_failure_retry_witness :
    ((summary_fish_traditional.advance (some "disk full")).write_error =
      some ("Failed to write config: " ++ "disk full") ∧
     (summary_fish_traditional.advance (some "disk full")).step = Step.Summary) ∧
    (((summary_fish_traditional.advance (some "disk full")).advance none).write_error = none ∧
     ((summary_fish_traditional.advance (some "disk full")).advance none).step = Step.Done) :=
  ⟨commit_failure_retry.1 summary_fish_traditional "disk full" rfl,
   commit_failure_retry.2.2.1 summary_fish_traditional "disk full" rfl⟩

/-- C7: on a selection-bearing step with the cursor in bounds, `move_up`
wraps the cursor to `(i + n - 1) % n` and `move_down` to `(i + 1) % n`;
on `Welcome`, `Summary` and `Done` both operations leave the session
entirely unchanged. -/
theorem cursor_wraparound :
    (∀ s : App, s.cur_cursor < s.cur_count →
      s.move_up.cur_cursor = (s.cur_cursor + s.cur_count - 1) % s.cur_count ∧
      s.move_down.cur_cursor = (s.cur_cursor + 1) % s.cur_count) ∧
    (∀ s : App, s.step = Step.Welcome ∨ s.step = Step.Summary ∨ s.step = Step.Done →
      s.move_up = s ∧ s.move_down = s) := by
  constructor
  · intro s h
    cases hs : s.step
    case Welcome => rw [App.cur_cursor, App.cur_count, hs] at h; simp at h
    case Summary => rw [App.cur_cursor, App.cur_count, hs] at h; simp at h
    case Done => rw [App.cur_cursor, App.cur_count, hs] at h; simp at h
    case Shell =>
      rw [App.cur_cursor, App.cur_count, hs] at h
      simp only [App.cur_cursor, App.cur_count, App.move_up, App.move_down, hs] at *
      exact ⟨up_index_eq _ _ h, rfl⟩
    case CommandStyle =>
      rw [App.cur_cursor, App.cur_count, hs] at h
      simp only [App.cur_cursor, App.cur_count, App.move_up, App.move_down, hs] at *
      exact ⟨up_index_eq _ _ h, rfl⟩
    case FolderStyle =>
      rw [App.cur_cursor, App.cur_count, hs] at h
      simp only [App.cur_cursor, App.cur_count, App.move_up, App.move_down, hs] at *
      exact ⟨up_index_eq _ _ h, rfl⟩
    case NewShellBehavior =>
      rw [App.cur_cursor, App.cur_count, hs] at h
      simp only [App.cur_cursor, App.cur_count, App.move_up, App.move_down, hs] at *
      exact ⟨up_index_eq _ _ h, rfl⟩
  · intro s h
    rcases h with h | h | h <;>
      exact ⟨by simp [App.move_up, h], by simp [App.move_down, h]⟩

/-- Witness for C7 on the concrete session one advance past `Welcome`
(the `Shell` step, 3 options, cursor 0). -/
theorem cursor_wraparound_witness :
    (App.new.advance none).cur_cursor < (App.new.advance none).cur_count ∧
    ((App.new.advance none).move_up.cur_cursor =
      ((App.new.advance none).cur_cursor + (App.new.advance none).cur_count - 1) %
        (App.new.advance none).cur_count ∧
     (App.new.advance none).move_down.cur_cursor =
      ((App.new.advance none).cur_cursor + 1) % (App.new.advance none).cur_count) :=
  ⟨by decide, cursor_wraparound.1 (App.new.advance none) (by decide)⟩

/-- C8: from `Welcome`, one advance reaches `Shell` and one subsequent
`go_back` returns to `Welcome`; moreover advancing on any non-`Summary`
step and going back on any step leave all four cursor positions
untouched. -/
theorem navigation_preserves_cursors :
    (∀ r : Option String, (App.new.advance r).step = Step.Shell ∧
      ((App.new.advance r).go_back).step = Step.Welcome) ∧
    (∀ (s : App) (r : Option String), s.step ≠ Step.Summary →
      (s.advance r).cursors = s.cursors) ∧
    (∀ s : App, s.go_back.cursors = s.cursors) := by
  refine ⟨fun r => ⟨rfl, rfl⟩, ?_, fun s => rfl⟩
  intro s r h
  simp [App.advance, h, App.cursors]

/-- Witness for C8: advancing the fresh session preserves its cursors. -/
theorem navigation_preserves_cursors_witness :
    (App.new.advance none).cursors = App.new.cursors :=
  navigation_preserves_cursors.2.1 App.new none (by decide)

/-- Applying any single operation preserves the in-bounds property of the
four cursors. -/
theorem applyOp_cursors_in_bounds (s : App) (op : Op) (h : s.cursors_in_bounds) :
    (s.applyOp op).cursors_in_bounds := by
  obtain ⟨h1, h2, h3, h4⟩ := h
  cases op with
  | up =>
    cases hs : s.step <;>
      simp_all [App.applyOp, App.move_up, App.cursors_in_bounds] <;>
      (split <;> omega)
  | down =>
    cases hs : s.step <;>
      simp_all [App.applyOp, App.move_down, App.cursors_in_bounds] <;>
      exact Nat.mod_lt _ (by omega)
  | back =>
    simp_all [App.applyOp, App.go_back, App.cursors_in_bounds]
  | advance r =>
    cases r <;> simp only [App.applyOp, App.advance] <;> split <;>
      simp_all [App.cursors_in_bounds]

/-- Running any operation sequence preserves the in-bounds property. -/
theorem run_cursors_in_bounds (l : List Op) :
    ∀ s : App, s.cursors_in_bounds → (run l s).cursors_in_bounds := by
  induction l with
  | nil => intro s h; exact h
  | cons op t ih =>
    intro s h
    exact ih _ (applyOp_cursors_in_bounds s op h)

/-- C9: the fresh session has every cursor at index 0 over a non-empty
option list, and after any sequence of operations every cursor index, as
the accessors read it, stays strictly below its option count — the direct
vector indexing in the four accessors never goes out of bounds on a
reachable state. -/
theorem cursor_indices_in_bounds :
    App.new.cursors = (some 0, some 0, some 0, some 0) ∧
    App.new.shells ≠ [] ∧ App.new.command_styles ≠ [] ∧
    App.new.folder_styles ≠ [] ∧ App.new.new_shell_options ≠ [] ∧
    ∀ l : List Op, (run l App.new).cursors_in_bounds := by
  refine ⟨by decide, by decide, by decide, by decide, by decide, ?_⟩
  intro l
  exact run_cursors_in_bounds l App.new (by decide)

/-- A single operation can only move the session into `Done` from `Done`
itself or by a successful advance performed on `Summary`. -/
theorem applyOp_step_done (s : App) (op : Op) (h : (s.applyOp op).step = Step.Done) :
    s.step = Step.Done ∨ (s.step = Step.Summary ∧ op = Op.advance none) := by
  cases op with
  | up =>
    exact Or.inl ((move_up_step s).symm.trans h)
  | down =>
    exact Or.inl ((move_down_step s).symm.trans h)
  | back =>
    have h' : s.step.prev = Step.Done := h
    left
    cases hs : s.step <;> simp_all [Step.prev]
  | advance r =>
    by_cases hs : s.step = Step.Summary
    · cases r with
      | none => exact Or.inr ⟨hs, rfl⟩
      | some e =>
        exfalso
        have h' : (s.advance (some e)).step = s.step := by
          simp [App.advance, hs]
        rw [show s.applyOp (Op.advance (some e)) = s.advance (some e) from rfl, h', hs] at h
        exact absurd h (by decide)
    · left
      have h' : s.step.next = Step.Done := by
        simpa [App.applyOp, App.advance, hs] using h
      cases hss : s.step <;> simp_all [Step.next]

/-- Any run that ends in `Done` contains a successful advance issued on
`Summary`, unless it already started in `Done`. -/
theorem run_done_origin (l : List Op) :
    ∀ s : App, (run l s).step = Step.Done →
      s.step = Step.Done ∨
      ∃ l₁ l₂, l = l₁ ++ Op.advance none :: l₂ ∧ (run l₁ s).step = Step.Summary := by
  induction l with
  | nil => intro s h; exact Or.inl h
  | cons op t ih =>
    intro s h
    have h' : (run t (s.applyOp op)).step = Step.Done := h
    rcases ih (s.applyOp op) h' with h1 | ⟨l₁, l₂, heq, h2⟩
    · rcases applyOp_step_done s op h1 with h2 | ⟨hsum, hop⟩
      · exact Or.inl h2
      · subst hop
        exact Or.inr ⟨[], t, rfl, hsum⟩
    · subst heq
      exact Or.inr ⟨op :: l₁, l₂, rfl, h2⟩

/-- C4: starting from the fresh session, any operation sequence whose final
state is `Done` contains an advance with successful persistence issued at a
prefix whose state is `Summary` — `Done` is reached only immediately after
a successful commit on `Summary` — and no operation moves a session out of
`Done`. -/
theorem done_only_after_successful_commit :
    (∀ l : List Op, (run l App.new).step = Step.Done →
      ∃ l₁ l₂, l = l₁ ++ Op.advance none :: l₂ ∧ (run l₁ App.new).step = Step.Summary) ∧
    (∀ (s : App) (op : Op), s.step = Step.Done → (s.applyOp op).step = Step.Done) := by
  constructor
  · intro l h
    rcases run_done_origin l App.new h with h1 | h2
    · exact absurd h1 (by decide)
    · exact h2
  · intro s op h
    cases op with
    | up => exact (move_up_step s).trans h
    | down => exact (move_down_step s).trans h
    | back =>
      show s.go_back.step = Step.Done
      simp [App.go_back, h, Step.prev]
    | advance r =>
      have hs : s.step ≠ Step.Summary := by
        rw [h]
        decide
      show (s.advance r).step = Step.Done
      simp [App.advance, hs, h, Step.next]

/-- Witness for C4: a six-advance run from the fresh session ends in
`Done` and decomposes around the successful commit on `Summary`; and a
`Done` session stays in `Done` under an operation. -/
theorem done_only_after_successful_commit_witness :
    (∃ l₁ l₂, ([Op.advance none, Op.advance none, Op.advance none, Op.advance none,
        Op.advance none, Op.advance none] : List Op) = l₁ ++ Op.advance none :: l₂ ∧
        (run l₁ App.new).step = Step.Summary) ∧
    (({ App.new with step := Step.Done } : App).applyOp (Op.advance none)).step = Step.Done :=
  ⟨done_only_after_successful_commit.1 _ (by decide),
   done_only_after_successful_commit.2 _ _ rfl⟩

/-- C10: `from_selections` sets the default shell to the chosen shell,
the enabled shells to exactly the one-element list of that shell, and
stores the command-style and folder-style strings verbatim in the general
preferences, for every choice of selections (recognized or not). -/
theorem from_selections_prefs_verbatim :
    ∀ (sh cs fs ns : String),
      (SemanticConfig.from_selections sh cs fs ns).shells.default = sh ∧
      (SemanticConfig.from_selections sh cs fs ns).shells.enabled = [sh] ∧
      (SemanticConfig.from_selections sh cs fs ns).shells.on_new_shell = ns ∧
      (SemanticConfig.from_selections sh cs fs ns).general.command_style = cs ∧
      (SemanticConfig.from_selections sh cs fs ns).general.folder_style = fs := by
  intro sh cs fs ns
  exact ⟨rfl, rfl, rfl, rfl, rfl⟩

end SemanticOS
